import Mathlib

/-!
Shallow embedding of the review-generation core of `app.py` (Amazon Review
Framework service).

The filesystem is modelled as a snapshot: a flag saying whether the framework
directory exists, and the directory listing as a list of `(filename, parse
result)` pairs, where the parse result is `some doc` when `json.load` on that
file succeeds with document `doc` and `none` when it raises.  The external
text-generation API is modelled as a function from the prompt to an
`Except String String`: `.ok text` is a successful completion, `.error msg`
is an exception carrying message `msg`.  Python `dict`s keyed by strings are
modelled as insertion-ordered association lists with Python's assignment
semantics (update in place, append when the key is fresh).
-/

namespace App

/-- JSON documents (integers stand in for Python numbers; no claim touches
numeric edge cases). -/
inductive Json where
  | null : Json
  | bool (b : Bool) : Json
  | num (n : Int) : Json
  | str (s : String) : Json
  | arr (elems : List Json) : Json
  | obj (fields : List (String × Json)) : Json
deriving Repr

/-- Python `s.endswith(suffix)`. -/
def endsWith (s suffix : String) : Bool :=
  suffix.data.isSuffixOf s.data

/-- Python dict lookup `d[k]` / membership `k in d` on an insertion-ordered
association list. -/
def dictLookup (d : List (String × Json)) (k : String) : Option Json :=
  (d.find? (fun p => p.1 == k)).map (fun p => p.2)

/-- Python dict assignment `d[k] = v`: update in place when the key exists,
append otherwise. -/
def dictInsert (d : List (String × Json)) (k : String) (v : Json) : List (String × Json) :=
  if d.any (fun p => p.1 == k) then
    d.map (fun p => if p.1 == k then (k, v) else p)
  else
    d ++ [(k, v)]

/-- A snapshot of the framework directory: whether it exists, and its listing.
Each listed file carries the result of parsing it as JSON (`none` = the parse
raises). -/
structure FS where
  dirExists : Bool
  files : List (String × Option Json)

/-- `FRAMEWORK_DIR` from `app.py`. -/
def FRAMEWORK_DIR : String := "NEW-SYSTEM"

/-- `load_framework_files` from `app.py`: empty mapping when the directory is
missing; otherwise iterate the listing, keep names ending in `.json`, store the
parsed document under the filename, and skip files whose parse raises. -/
def load_framework_files (fs : FS) : List (String × Json) :=
  if fs.dirExists = false then []
  else
    fs.files.foldl (fun acc f =>
      if endsWith f.1 ".json" then
        match f.2 with
        | some doc => dictInsert acc f.1 doc
        | none => acc
      else acc) []

/-- The `ReviewRequest` Pydantic model. -/
structure ReviewRequest where
  product_name : String
  product_category : String
  user_experience : String
  include_components : List String

/-- The `ReviewResponse` Pydantic model. -/
structure ReviewResponse where
  review : String
  components_used : List String

/-- Suffix normalization from `generate_review` and `get_file`:
`if not component.endswith(".json"): component += ".json"`. -/
def normalize (component : String) : String :=
  if endsWith component ".json" then component else component ++ ".json"

/-- The three canonical default component names (`default_components` in
`generate_review`). -/
def default_components : List String :=
  ["framework-config.json", "review-strategy.json", "content-structure.json"]

/-- The component-selection logic of `generate_review` (lines 108-128 of
`app.py`): defaults when nothing is requested, otherwise the suffix-normalized
requested names, in both cases silently skipping names absent from the store. -/
def resolve (fw : List (String × Json)) (requested : List String) : List (String × Json) :=
  if requested.isEmpty then
    default_components.foldl (fun acc component =>
      match dictLookup fw component with
      | some v => dictInsert acc component v
      | none => acc) []
  else
    requested.foldl (fun acc c =>
      match dictLookup fw (normalize c) with
      | some v => dictInsert acc (normalize c) v
      | none => acc) []

/-- One hex digit, lower case, as emitted by Python's `json` module. -/
def hexDigit (n : Nat) : Char :=
  if n < 10 then Char.ofNat (48 + n) else Char.ofNat (87 + n)

/-- A `\uXXXX` escape. -/
def uEscape (n : Nat) : String :=
  String.mk ['\\', 'u', hexDigit (n / 4096 % 16), hexDigit (n / 256 % 16),
    hexDigit (n / 16 % 16), hexDigit (n % 16)]

/-- Escaping of one character inside a JSON string literal, following
`json.dumps` with its default `ensure_ascii=True` (non-ASCII code points become
`\uXXXX`, astral ones a surrogate pair). -/
def escapeChar (c : Char) : String :=
  if c = '"' then "\\\""
  else if c = '\\' then "\\\\"
  else if c = '\n' then "\\n"
  else if c = '\r' then "\\r"
  else if c = '\t' then "\\t"
  else if c.toNat = 8 then "\\b"
  else if c.toNat = 12 then "\\f"
  else if c.toNat < 32 then uEscape c.toNat
  else if c.toNat < 127 then String.singleton c
  else if c.toNat < 65536 then uEscape c.toNat
  else
    let v := c.toNat - 65536
    uEscape (55296 + v / 1024) ++ uEscape (56320 + v % 1024)

/-- A JSON string literal for `s`. -/
def escapeString (s : String) : String :=
  "\"" ++ String.join (s.data.map escapeChar) ++ "\""

/-- `n` spaces. -/
def indentStr (n : Nat) : String :=
  String.mk (List.replicate n ' ')

mutual

/-- `json.dumps(v, indent=2)` at nesting depth `lvl`. -/
def dumpsVal : Nat → Json → String
  | _, Json.null => "null"
  | _, Json.bool b => if b then "true" else "false"
  | _, Json.num n => toString n
  | _, Json.str s => escapeString s
  | _, Json.arr [] => "[]"
  | lvl, Json.arr (x :: xs) =>
      "[\n" ++ dumpsElems (lvl + 1) (x :: xs) ++ "\n" ++ indentStr (2 * lvl) ++ "]"
  | _, Json.obj [] => "\x7b\x7d"
  | lvl, Json.obj (f :: fs) =>
      "\x7b\n" ++ dumpsFields (lvl + 1) (f :: fs) ++ "\n" ++ indentStr (2 * lvl) ++ "\x7d"

/-- Array elements, comma/newline separated, each on its own indented line. -/
def dumpsElems : Nat → List Json → String
  | _, [] => ""
  | lvl, [x] => indentStr (2 * lvl) ++ dumpsVal lvl x
  | lvl, x :: y :: xs =>
      indentStr (2 * lvl) ++ dumpsVal lvl x ++ ",\n" ++ dumpsElems lvl (y :: xs)

/-- Object fields, comma/newline separated, `"key": value` per line. -/
def dumpsFields : Nat → List (String × Json) → String
  | _, [] => ""
  | lvl, [f] => indentStr (2 * lvl) ++ escapeString f.1 ++ ": " ++ dumpsVal lvl f.2
  | lvl, f :: g :: fs =>
      indentStr (2 * lvl) ++ escapeString f.1 ++ ": " ++ dumpsVal lvl f.2 ++ ",\n"
        ++ dumpsFields lvl (g :: fs)

end

/-- `json.dumps(components, indent=2)` on the components dict. -/
def dumpsComponents (components : List (String × Json)) : String :=
  dumpsVal 0 (Json.obj components)

def PROMPT_SEG1 : String :=
  "\n    You are a professional product reviewer using the Amazon Review Framework.\n    \n    Product: "

def PROMPT_SEG2 : String := "\n    Category: "

def PROMPT_SEG3 : String :=
  "\n    \n    User\x27s experience with the product:\n    "

def PROMPT_SEG4 : String :=
  "\n    \n    Using the Amazon Review Framework components below, generate a comprehensive, \n    well-structured review for this product. Follow the framework guidelines for structure,\n    content balance, and authenticity.\n    \n    Framework components to use:\n    "

def PROMPT_SEG5 : String :=
  "\n    \n    Generate a complete review following these framework guidelines.\n    "

/-- The prompt f-string of `generate_review` (lines 131-148 of `app.py`),
embedding the three free-text fields verbatim and the components dict as
indented JSON. -/
def build_prompt (product_name product_category user_experience : String)
    (components : List (String × Json)) : String :=
  PROMPT_SEG1 ++ product_name ++ PROMPT_SEG2 ++ product_category ++ PROMPT_SEG3
    ++ user_experience ++ PROMPT_SEG4 ++ dumpsComponents components ++ PROMPT_SEG5

/-- The process environment: filesystem snapshot, whether an Anthropic
credential is configured, and the external generation endpoint (`.ok` = the
first completion's text, `.error` = an exception with that message). -/
structure Env where
  fs : FS
  hasAnthropic : Bool
  net : String → Except String String

/-- The fixed disabled message returned by `generate_review` when no
credential is configured. -/
def DISABLED_MSG : String :=
  "Anthropic API key not set. Please configure the ANTHROPIC_API_KEY environment variable to use review generation."

/-- `generate_review` from `app.py`, instrumented: the returned string paired
with the list of prompts sent to the external API (empty = no network call). -/
def generate_review_instr (env : Env) (request : ReviewRequest) : String × List String :=
  if env.hasAnthropic = false then (DISABLED_MSG, [])
  else
    let framework_files := load_framework_files env.fs
    let components := resolve framework_files request.include_components
    let prompt := build_prompt request.product_name request.product_category
      request.user_experience components
    match env.net prompt with
    | Except.ok text => (text, [prompt])
    | Except.error e => ("Error generating review: " ++ e, [prompt])

/-- `generate_review`: just the returned string. -/
def generate_review (env : Env) (request : ReviewRequest) : String :=
  (generate_review_instr env request).1

/-- The `POST /generate-review` handler `create_review` (lines 296-312 of
`app.py`): always HTTP 200, `components_used` computed from the request alone. -/
def create_review (env : Env) (request : ReviewRequest) : Nat × ReviewResponse :=
  let review := generate_review env request
  let components_used :=
    if request.include_components.isEmpty then
      ["framework-config.json", "review-strategy.json", "content-structure.json"]
    else
      request.include_components.map (fun c => if endsWith c ".json" then c else c ++ ".json")
  (200, ⟨review, components_used⟩)

/-- The direct-path fallback of `get_file`: `os.path.exists` on
`FRAMEWORK_DIR/filename` followed by `json.load`; `none` when the path is
missing or the parse raises. -/
def direct_path_load (fs : FS) (filename : String) : Option Json :=
  if fs.dirExists then
    match fs.files.find? (fun f => f.1 == filename) with
    | some f => f.2
    | none => none
  else none

/-- The `GET /files/{filename}` handler `get_file` (lines 258-279 of
`app.py`): `.ok` with the parsed JSON, or `.error` with `(status, detail)`. -/
def get_file (fs : FS) (filename0 : String) : Except (Nat × String) Json :=
  let filename := normalize filename0
  let framework_files := load_framework_files fs
  match dictLookup framework_files filename with
  | some v => Except.ok v
  | none =>
    match direct_path_load fs filename with
    | some v => Except.ok v
    | none =>
      Except.error (404, "File " ++ filename ++ " not found in " ++ FRAMEWORK_DIR)

/-! ### Helper lemmas -/

theorem endsWith_append_json (x : String) : endsWith (x ++ ".json") ".json" = true := by
  simp [endsWith, String.data_append]

theorem normalize_of_endsWith (x : String) (h : endsWith x ".json" = true) :
    normalize x = x := by
  simp [normalize, h]

theorem normalize_of_not_endsWith (x : String) (h : endsWith x ".json" = false) :
    normalize x = x ++ ".json" := by
  simp [normalize, h]

theorem dictInsert_append_of_fresh (d : List (String × Json)) (k : String) (v : Json)
    (h : ∀ p ∈ d, p.1 ≠ k) : dictInsert d k v = d ++ [(k, v)] := by
  have hany : d.any (fun p => p.1 == k) = false := by
    rw [List.any_eq_false]
    intro p hp
    simp [h p hp]
  unfold dictInsert
  rw [hany]
  simp

theorem dictInsert_keys_subset (d : List (String × Json)) (k : String) (v : Json) :
    (dictInsert d k v).map Prod.fst ⊆ d.map Prod.fst ++ [k] := by
  unfold dictInsert
  split
  · intro a ha
    simp only [List.map_map, List.mem_map, Function.comp] at ha
    obtain ⟨p, hp, he⟩ := ha
    by_cases hk : p.1 == k
    · simp only [hk, if_pos] at he
      simp [← he]
    · simp only [hk, if_neg, Bool.false_eq_true, not_false_iff] at he
      simp only [List.mem_append, List.mem_map]
      exact Or.inl ⟨p, hp, he⟩
  · simp

/-- Keys produced by the component-selection fold all come from the
accumulator or from `g` applied to the scanned names. -/
theorem foldl_select_keys_subset (fw : List (String × Json)) (g : String → String) :
    ∀ (names : List String) (acc : List (String × Json)),
      (names.foldl (fun a c =>
        match dictLookup fw (g c) with
        | some v => dictInsert a (g c) v
        | none => a) acc).map Prod.fst ⊆ acc.map Prod.fst ++ names.map g := by
  intro names
  induction names with
  | nil => intro acc; simp
  | cons c cs ih =>
    intro acc a ha
    simp only [List.foldl_cons] at ha
    cases hl : dictLookup fw (g c) with
    | none =>
      simp only [hl] at ha
      have h2 := ih acc ha
      simp only [List.mem_append, List.map_cons, List.mem_cons] at h2 ⊢
      tauto
    | some v =>
      simp only [hl] at ha
      have h2 := ih (dictInsert acc (g c) v) ha
      rw [List.mem_append] at h2
      cases h2 with
      | inl h3 =>
        have h4 := dictInsert_keys_subset acc (g c) v h3
        simp only [List.mem_append, List.mem_singleton, List.map_cons, List.mem_cons] at h4 ⊢
        tauto
      | inr h3 =>
        simp only [List.mem_append, List.map_cons, List.mem_cons]
        tauto

/-- When no scanned name hits the store, the component-selection fold leaves
the accumulator unchanged. -/
theorem foldl_select_all_none (fw : List (String × Json)) (g : String → String) :
    ∀ (names : List String) (acc : List (String × Json)),
      (∀ c ∈ names, dictLookup fw (g c) = none) →
      names.foldl (fun a c =>
        match dictLookup fw (g c) with
        | some v => dictInsert a (g c) v
        | none => a) acc = acc := by
  intro names
  induction names with
  | nil => intro acc _; rfl
  | cons c cs ih =>
    intro acc h
    simp only [List.foldl_cons, h c (List.mem_cons_self c cs)]
    exact ih acc (fun c' hc' => h c' (List.mem_cons_of_mem c hc'))

/-- With pairwise-distinct keys, the component-selection fold appends exactly
the found entries in scan order. -/
theorem foldl_select_eq_filterMap (fw : List (String × Json)) (g : String → String) :
    ∀ (names : List String) (acc : List (String × Json)),
      (names.map g).Nodup →
      (∀ p ∈ acc, ∀ c ∈ names, p.1 ≠ g c) →
      names.foldl (fun a c =>
        match dictLookup fw (g c) with
        | some v => dictInsert a (g c) v
        | none => a) acc
      = acc ++ names.filterMap (fun c => (dictLookup fw (g c)).map (fun v => (g c, v))) := by
  intro names
  induction names with
  | nil => intro acc _ _; simp
  | cons c cs ih =>
    intro acc hnd hdisj
    have hnd' : (cs.map g).Nodup := by
      simp only [List.map_cons, List.nodup_cons] at hnd
      exact hnd.2
    have hfresh : g c ∉ cs.map g := by
      simp only [List.map_cons, List.nodup_cons] at hnd
      exact hnd.1
    simp only [List.foldl_cons, List.filterMap_cons]
    cases hl : dictLookup fw (g c) with
    | none =>
      simp only [hl, Option.map_none]
      exact ih acc hnd'
        (fun p hp c' hc' => hdisj p hp c' (List.mem_cons_of_mem c hc'))
    | some v =>
      simp only [hl, Option.map_some]
      rw [dictInsert_append_of_fresh acc (g c) v
        (fun p hp => hdisj p hp c (List.mem_cons_self c cs))]
      rw [ih (acc ++ [(g c, v)]) hnd' ?hd]
      · simp
      case hd =>
        intro p hp c' hc'
        rw [List.mem_append] at hp
        cases hp with
        | inl h1 => exact hdisj p h1 c' (List.mem_cons_of_mem c hc')
        | inr h1 =>
          simp only [List.mem_singleton] at h1
          subst h1
          intro he
          have he' : g c = g c' := he
          exact hfresh (he' ▸ List.mem_map_of_mem g hc')

/-- With a duplicate-free directory listing, the loading fold appends exactly
one entry per `.json`-named file whose parse succeeds, in listing order. -/
theorem load_foldl_eq_filterMap :
    ∀ (files : List (String × Option Json)) (acc : List (String × Json)),
      (files.map Prod.fst).Nodup →
      (∀ p ∈ acc, ∀ f ∈ files, p.1 ≠ f.1) →
      files.foldl (fun acc f =>
        if endsWith f.1 ".json" then
          match f.2 with
          | some doc => dictInsert acc f.1 doc
          | none => acc
        else acc) acc
      = acc ++ files.filterMap (fun f =>
          if endsWith f.1 ".json" then f.2.map (fun d => (f.1, d)) else none) := by
  intro files
  induction files with
  | nil => intro acc _ _; simp
  | cons f fs ih =>
    intro acc hnd hdisj
    have hnd' : (fs.map Prod.fst).Nodup := by
      simp only [List.map_cons, List.nodup_cons] at hnd
      exact hnd.2
    have hfresh : f.1 ∉ fs.map Prod.fst := by
      simp only [List.map_cons, List.nodup_cons] at hnd
      exact hnd.1
    have hdisj' : ∀ p ∈ acc, ∀ g ∈ fs, p.1 ≠ g.1 :=
      fun p hp g hg => hdisj p hp g (List.mem_cons_of_mem f hg)
    simp only [List.foldl_cons, List.filterMap_cons]
    by_cases hj : endsWith f.1 ".json" = true
    · cases hp : f.2 with
      | none =>
        simp only [hj, hp, if_true, Option.map_none]
        exact ih acc hnd' hdisj'
      | some doc =>
        simp only [hj, hp, if_true, Option.map_some]
        rw [dictInsert_append_of_fresh acc f.1 doc
          (fun p hpm => hdisj p hpm f (List.mem_cons_self f fs))]
        rw [ih (acc ++ [(f.1, doc)]) hnd' ?hd]
        · simp
        case hd =>
          intro p hpm g hg
          rw [List.mem_append] at hpm
          cases hpm with
          | inl h1 => exact hdisj p h1 g (List.mem_cons_of_mem f hg)
          | inr h1 =>
            simp only [List.mem_singleton] at h1
            subst h1
            intro he
            have : f.1 ∈ fs.map Prod.fst := by
              have he' : f.1 = g.1 := he
              exact he' ▸ List.mem_map_of_mem Prod.fst hg
            exact hfresh this
    · have hj' : endsWith f.1 ".json" = false := by
        cases h : endsWith f.1 ".json"
        · rfl
        · exact absurd h hj
      simp only [hj', Bool.false_eq_true, if_false]
      exact ih acc hnd' hdisj'

/-! ### Claim theorems -/

/-- C4: `load_framework_files` returns an empty mapping (not an error) when the
directory does not exist; otherwise it has exactly one entry per `.json`-named
file of the listing whose parse succeeds, keyed by filename with the parsed
document as value, files failing to parse being skipped without affecting the
other entries. -/
theorem load_framework_files_spec (fs : FS)
    (hnd : (fs.files.map Prod.fst).Nodup) :
    (fs.dirExists = false → load_framework_files fs = []) ∧
    (fs.dirExists = true → load_framework_files fs =
      fs.files.filterMap (fun f =>
        if endsWith f.1 ".json" then f.2.map (fun d => (f.1, d)) else none)) := by
  constructor
  · intro h
    simp [load_framework_files, h]
  · intro h
    unfold load_framework_files
    rw [h]
    simpa using load_foldl_eq_filterMap fs.files [] hnd (by simp)

/-- Witness for C4 on a concrete listing with one good file, one file whose
parse raises, and one non-JSON name. -/
theorem load_framework_files_spec_witness :
    ((FS.mk true [("a.json", some Json.null), ("bad.json", none), ("notes.txt", some Json.null)]).dirExists = false →
      load_framework_files (FS.mk true [("a.json", some Json.null), ("bad.json", none), ("notes.txt", some Json.null)]) = []) ∧
    ((FS.mk true [("a.json", some Json.null), ("bad.json", none), ("notes.txt", some Json.null)]).dirExists = true →
      load_framework_files (FS.mk true [("a.json", some Json.null), ("bad.json", none), ("notes.txt", some Json.null)]) =
        [("a.json", some Json.null), ("bad.json", none), ("notes.txt", some Json.null)].filterMap (fun f =>
          if endsWith f.1 ".json" then f.2.map (fun d => (f.1, d)) else none)) :=
  load_framework_files_spec
    (FS.mk true [("a.json", some Json.null), ("bad.json", none), ("notes.txt", some Json.null)])
    (by decide)

/-- C6: resolving an empty requested list returns exactly the subset of the
three canonical default names present in the store (possibly empty), in
canonical order, and is a total operation. -/
theorem resolve_empty_request_defaults (fw : List (String × Json)) :
    resolve fw [] =
      default_components.filterMap (fun c => (dictLookup fw c).map (fun v => (c, v))) := by
  have h := foldl_select_eq_filterMap fw (fun c => c) default_components [] (by decide) (by simp)
  simpa [resolve] using h

/-- C5 (amended): for a name `x` that does not already end in `.json`,
resolving `[x]` and resolving `[x ++ ".json"]` agree. -/
theorem resolve_suffix_equiv (fw : List (String × Json)) (x : String)
    (h : endsWith x ".json" = false) :
    resolve fw [x] = resolve fw [x ++ ".json"] := by
  simp [resolve, normalize_of_not_endsWith x h,
    normalize_of_endsWith (x ++ ".json") (endsWith_append_json x)]

/-- Witness for C5 (amended) at `x = "custom"`. -/
theorem resolve_suffix_equiv_witness :
    endsWith "custom" ".json" = false ∧
    resolve [("custom.json", Json.num 1)] ["custom"] =
      resolve [("custom.json", Json.num 1)] ["custom" ++ ".json"] :=
  ⟨rfl, resolve_suffix_equiv [("custom.json", Json.num 1)] "custom" rfl⟩

/-- C5 counterexample: for `x = "a.json"` (a name already carrying the suffix)
the claimed equivalence fails: `resolve(["a.json"])` finds the stored file
while `resolve(["a.json" ++ ".json"])` looks up `"a.json.json"` and returns
the empty mapping. -/
theorem resolve_suffix_equiv_cex :
    ¬ (resolve [("a.json", Json.null)] ["a.json"] =
       resolve [("a.json", Json.null)] ["a.json" ++ ".json"]) := by
  intro hcontra
  have h1 : resolve [("a.json", Json.null)] ["a.json"] = [("a.json", Json.null)] := rfl
  have h2 : resolve [("a.json", Json.null)] ["a.json" ++ ".json"] = [] := rfl
  rw [h1, h2] at hcontra
  exact List.cons_ne_nil _ _ hcontra

/-- C7: resolving a non-empty request whose names all miss the store yields the
empty mapping (no error), and that empty mapping is legal prompt-builder input:
the prompt is still produced, with the empty-object literal in place of
framework JSON. -/
theorem resolve_unknown_names_empty (fw : List (String × Json)) (requested : List String)
    (pn pc ue : String)
    (hne : requested ≠ [])
    (hmiss : ∀ c ∈ requested, dictLookup fw (normalize c) = none) :
    resolve fw requested = [] ∧
    ∃ a b : String,
      build_prompt pn pc ue (resolve fw requested) = a ++ "\x7b\x7d" ++ b := by
  have hres : resolve fw requested = [] := by
    have hie : requested.isEmpty = false := by
      cases requested with
      | nil => exact absurd rfl hne
      | cons c cs => rfl
    unfold resolve
    rw [hie]
    simpa using foldl_select_all_none fw normalize requested [] hmiss
  refine ⟨hres, ?_⟩
  rw [hres]
  exact ⟨PROMPT_SEG1 ++ pn ++ PROMPT_SEG2 ++ pc ++ PROMPT_SEG3 ++ ue ++ PROMPT_SEG4,
    PROMPT_SEG5, by simp [build_prompt, dumpsComponents, dumpsVal, String.append_assoc]⟩

/-- Witness for C7 on an empty store and the request `["nope"]`. -/
theorem resolve_unknown_names_empty_witness :
    (["nope"] ≠ ([] : List String)) ∧
    (resolve [] ["nope"] = [] ∧
      ∃ a b : String,
        build_prompt "Widget" "Tools" "Works great" (resolve [] ["nope"]) =
          a ++ "\x7b\x7d" ++ b) :=
  ⟨by simp,
    resolve_unknown_names_empty [] ["nope"] "Widget" "Tools" "Works great"
      (by simp) (fun c _ => rfl)⟩

/-- C1 (amended): `components_used` in the `POST /generate-review` response is
computed from the request alone — the three canonical defaults when the request
names none, otherwise the suffix-normalized requested names with no store
lookup — so it always contains every component actually used to assemble the
prompt, but requested names absent from the store are not removed from it. -/
theorem components_used_from_request (env : Env) (req : ReviewRequest) :
    ((create_review env req).2.components_used =
      if req.include_components.isEmpty then default_components
      else req.include_components.map normalize) ∧
    (resolve (load_framework_files env.fs) req.include_components).map Prod.fst ⊆
      (create_review env req).2.components_used := by
  constructor
  · rfl
  · rcases hreq : req.include_components with _ | ⟨c, cs⟩
    · have hcu : (create_review env req).2.components_used = default_components := by
        simp [create_review, hreq, default_components]
      rw [hcu]
      have h := foldl_select_keys_subset (load_framework_files env.fs) (fun c => c)
        default_components []
      intro a ha
      have ha2 : a ∈ ([] : List (String × Json)).map Prod.fst
          ++ default_components.map (fun c => c) := by
        apply h
        simpa [resolve] using ha
      simpa using ha2
    · have hcu : (create_review env req).2.components_used = (c :: cs).map normalize := by
        simp only [create_review, hreq, List.isEmpty_cons, Bool.false_eq_true, if_false]
        rfl
      rw [hcu]
      have h := foldl_select_keys_subset (load_framework_files env.fs) normalize (c :: cs) []
      intro a ha
      have ha2 : a ∈ ([] : List (String × Json)).map Prod.fst ++ (c :: cs).map normalize := by
        apply h
        simpa [resolve] using ha
      simpa using ha2

/-- C1 counterexample: with an empty store and the request
`include_components = ["nonexistent"]`, the response's `components_used` is
`["nonexistent.json"]` while the resolved list actually used to assemble the
prompt is empty — the missing name is not skipped from `components_used`. -/
theorem components_used_from_request_cex :
    ¬ ((create_review (Env.mk (FS.mk true []) true (fun _ => Except.ok "review"))
          (ReviewRequest.mk "Widget" "Tools" "Works great" ["nonexistent"])).2.components_used =
        (resolve (load_framework_files (FS.mk true []))
          ["nonexistent"]).map Prod.fst) := by
  intro hcontra
  have h1 : (create_review (Env.mk (FS.mk true []) true (fun _ => Except.ok "review"))
      (ReviewRequest.mk "Widget" "Tools" "Works great" ["nonexistent"])).2.components_used =
      ["nonexistent.json"] := rfl
  have h2 : (resolve (load_framework_files (FS.mk true []))
      ["nonexistent"]).map Prod.fst = [] := rfl
  rw [h1, h2] at hcontra
  exact List.cons_ne_nil _ _ hcontra

/-- C2: with no credential configured, `generate_review` returns the fixed
disabled message, makes no network call (the instrumented call list is empty)
and is total, and `create_review` on an empty `include_components` request
returns status 200 with the disabled message and the three canonical suffixed
default names. -/
theorem generate_review_disabled (env : Env) (req : ReviewRequest)
    (hcred : env.hasAnthropic = false)
    (hempty : req.include_components = []) :
    generate_review env req = DISABLED_MSG ∧
    (generate_review_instr env req).2 = [] ∧
    create_review env req =
      (200, ReviewResponse.mk DISABLED_MSG
        ["framework-config.json", "review-strategy.json", "content-structure.json"]) := by
  refine ⟨?_, ?_, ?_⟩
  · simp [generate_review, generate_review_instr, hcred]
  · simp [generate_review_instr, hcred]
  · simp [create_review, generate_review, generate_review_instr, hcred, hempty]

/-- Witness for C2 with the credential unset and an empty component request. -/
theorem generate_review_disabled_witness :
    generate_review (Env.mk (FS.mk false []) false (fun _ => Except.error "e"))
      (ReviewRequest.mk "Widget" "Tools" "Works great" []) = DISABLED_MSG ∧
    (generate_review_instr (Env.mk (FS.mk false []) false (fun _ => Except.error "e"))
      (ReviewRequest.mk "Widget" "Tools" "Works great" [])).2 = [] ∧
    create_review (Env.mk (FS.mk false []) false (fun _ => Except.error "e"))
      (ReviewRequest.mk "Widget" "Tools" "Works great" []) =
      (200, ReviewResponse.mk DISABLED_MSG
        ["framework-config.json", "review-strategy.json", "content-structure.json"]) :=
  generate_review_disabled (Env.mk (FS.mk false []) false (fun _ => Except.error "e"))
    (ReviewRequest.mk "Widget" "Tools" "Works great" []) rfl rfl

/-- C3: with the credential configured, an exception from the external call is
caught inside `generate_review` and converted to the string
`"Error generating review: {message}"`; `create_review` still answers
status 200, so no generation failure surfaces as a 5xx. -/
theorem generate_review_catches_network_error (env : Env) (req : ReviewRequest) (msg : String)
    (hcred : env.hasAnthropic = true)
    (hnet : env.net (build_prompt req.product_name req.product_category req.user_experience
        (resolve (load_framework_files env.fs) req.include_components)) = Except.error msg) :
    generate_review env req = "Error generating review: " ++ msg ∧
    (create_review env req).1 = 200 := by
  constructor
  · simp [generate_review, generate_review_instr, hcred, hnet]
  · rfl

/-- Witness for C3 with an endpoint that always raises with message "boom". -/
theorem generate_review_catches_network_error_witness :
    generate_review (Env.mk (FS.mk true []) true (fun _ => Except.error "boom"))
      (ReviewRequest.mk "Widget" "Tools" "Works great" []) =
      "Error generating review: " ++ "boom" ∧
    (create_review (Env.mk (FS.mk true []) true (fun _ => Except.error "boom"))
      (ReviewRequest.mk "Widget" "Tools" "Works great" [])).1 = 200 :=
  generate_review_catches_network_error
    (Env.mk (FS.mk true []) true (fun _ => Except.error "boom"))
    (ReviewRequest.mk "Widget" "Tools" "Works great" []) "boom" rfl rfl

/-- C8: the built prompt embeds the three free-text fields verbatim, in the
order product, category, experience, followed by the serialized components,
and the empty components mapping serializes to the empty-object literal. -/
theorem build_prompt_fields_verbatim (pn pc ue : String)
    (components : List (String × Json)) :
    (∃ s1 s2 s3 s4 s5 : String,
      build_prompt pn pc ue components =
        s1 ++ pn ++ s2 ++ pc ++ s3 ++ ue ++ s4 ++ dumpsComponents components ++ s5) ∧
    dumpsComponents [] = "\x7b\x7d" :=
  ⟨⟨PROMPT_SEG1, PROMPT_SEG2, PROMPT_SEG3, PROMPT_SEG4, PROMPT_SEG5, rfl⟩, rfl⟩

/-- C9: `GET /files/{filename}` appends the `.json` suffix when missing and
answers 404 with detail exactly `"File {filename} not found in {dir}"` (the
suffixed name, the configured directory) precisely when both the store lookup
and the direct-path fallback fail. -/
theorem get_file_404_iff (fs : FS) (filename0 : String) :
    (get_file fs filename0 =
      Except.error (404,
        "File " ++ normalize filename0 ++ " not found in " ++ FRAMEWORK_DIR)) ↔
    (dictLookup (load_framework_files fs) (normalize filename0) = none ∧
      direct_path_load fs (normalize filename0) = none) := by
  simp only [get_file]
  cases h1 : dictLookup (load_framework_files fs) (normalize filename0) with
  | some v => simp [h1]
  | none =>
    cases h2 : direct_path_load fs (normalize filename0) with
    | some v => simp [h1, h2]
    | none => simp [h1, h2]

/-- C10: when the requested file misses the loaded store but is present on
disk with a parse that raises, `GET /files/{filename}` still answers the
not-found 404 — the fallback parse error is swallowed, not surfaced as a parse
error or a 5xx. -/
theorem get_file_parse_failure_404 (fs : FS) (filename0 : String)
    (hdir : fs.dirExists = true)
    (hstore : dictLookup (load_framework_files fs) (normalize filename0) = none)
    (hdisk : fs.files.find? (fun f => f.1 == normalize filename0) =
      some (normalize filename0, none)) :
    get_file fs filename0 =
      Except.error (404,
        "File " ++ normalize filename0 ++ " not found in " ++ FRAMEWORK_DIR) := by
  simp [get_file, direct_path_load, hdir, hstore, hdisk]

/-- Witness for C10: the listing holds only `bad.json` whose parse raises, and
`GET /files/bad` answers the not-found 404. -/
theorem get_file_parse_failure_404_witness :
    get_file (FS.mk true [("bad.json", none)]) "bad" =
      Except.error (404,
        "File " ++ normalize "bad" ++ " not found in " ++ FRAMEWORK_DIR) :=
  get_file_parse_failure_404 (FS.mk true [("bad.json", none)]) "bad" rfl rfl rfl

end App
